import Mathlib

/-!
Verification development for the Mapping browser extension
(`src/utils/crypto.js`, `src/utils/storage.js`, `src/background.js`).

Shallow embedding conventions:
* JavaScript strings that carry binary data (outputs of `btoa`, inputs of
  `atob`) are modelled as `List Nat` of character codes; byte arrays
  (`Uint8Array`) are `List Nat` with every element `< 256`.
* Web-platform primitives that the repository merely calls
  (`crypto.subtle` AES-GCM, `TextEncoder`/`TextDecoder`, `JSON.stringify`
  / `JSON.parse`, PBKDF2) are abstracted as parameters carrying exactly
  the contracts the platform guarantees; everything the repository itself
  implements (base64 helpers, control flow, session bookkeeping) is
  translated from source.
* A JavaScript function that can `throw` is modelled with `Option` /
  `Except`; `null`/`undefined` results are `Option.none`.
-/

namespace Mapping

/-! ### Base64 (`btoa` / `atob` as used by `arrayBufferToBase64` /
`base64ToArrayBuffer` in `src/utils/crypto.js`)

`arrayBufferToBase64` turns each byte into one character of a binary
string and calls `btoa`; `base64ToArrayBuffer` calls `atob` and reads the
character codes back.  Both byte loops are the identity on the byte
values, so the pair is exactly base64 over byte lists. -/

/-- Character code (standard base64 alphabet) of a sextet `n < 64`. -/
def sextetChar (n : Nat) : Nat :=
  if n < 26 then 65 + n
  else if n < 52 then 97 + (n - 26)
  else if n < 62 then 48 + (n - 52)
  else if n = 62 then 43
  else 47

/-- Sextet encoded by a base64 alphabet character code. -/
def charSextet (c : Nat) : Nat :=
  if 65 ≤ c ∧ c ≤ 90 then c - 65
  else if 97 ≤ c ∧ c ≤ 122 then 26 + (c - 97)
  else if 48 ≤ c ∧ c ≤ 57 then 52 + (c - 48)
  else if c = 43 then 62
  else 63

/-- `btoa` on a binary string of byte values: base64 encoding,
three bytes at a time, `=` (code 61) padding. -/
def btoa : List Nat → List Nat
  | [] => []
  | [b0] =>
      [sextetChar (b0 / 4), sextetChar (b0 % 4 * 16), 61, 61]
  | [b0, b1] =>
      [sextetChar (b0 / 4), sextetChar (b0 % 4 * 16 + b1 / 16),
       sextetChar (b1 % 16 * 4), 61]
  | b0 :: b1 :: b2 :: rest =>
      sextetChar (b0 / 4) :: sextetChar (b0 % 4 * 16 + b1 / 16) ::
      sextetChar (b1 % 16 * 4 + b2 / 64) :: sextetChar (b2 % 64) ::
      btoa rest

/-- `atob`: base64 decoding, four characters at a time, honouring `=`
padding in the trailing group. -/
def atob : List Nat → List Nat
  | c0 :: c1 :: c2 :: c3 :: rest =>
      let s0 := charSextet c0
      let s1 := charSextet c1
      if c2 = 61 then [s0 * 4 + s1 / 16]
      else
        let s2 := charSextet c2
        if c3 = 61 then [s0 * 4 + s1 / 16, s1 % 16 * 16 + s2 / 4]
        else
          (s0 * 4 + s1 / 16) :: (s1 % 16 * 16 + s2 / 4) ::
          (s2 % 4 * 64 + charSextet c3) :: atob rest
  | _ => []

theorem charSextet_sextetChar_fin :
    ∀ m : Fin 64, charSextet (sextetChar m.val) = m.val := by decide

theorem sextetChar_ne_61_fin : ∀ m : Fin 64, sextetChar m.val ≠ 61 := by
  decide

theorem charSextet_sextetChar {n : Nat} (h : n < 64) :
    charSextet (sextetChar n) = n :=
  charSextet_sextetChar_fin ⟨n, h⟩

theorem sextetChar_ne_61 {n : Nat} (h : n < 64) : sextetChar n ≠ 61 :=
  sextetChar_ne_61_fin ⟨n, h⟩

/-- Decoding inverts encoding on lists of bytes. -/
theorem atob_btoa : ∀ (bs : List Nat), (∀ b ∈ bs, b < 256) →
    atob (btoa bs) = bs
  | [], _ => rfl
  | [b0], h => by
      have hb0 : b0 < 256 := h b0 (by simp)
      have h1 : b0 / 4 < 64 := by omega
      have h2 : b0 % 4 * 16 < 64 := by omega
      simp only [btoa, atob, if_true]
      simp only [charSextet_sextetChar h1, charSextet_sextetChar h2,
        List.cons.injEq, and_true]
      omega
  | [b0, b1], h => by
      have hb0 : b0 < 256 := h b0 (by simp)
      have hb1 : b1 < 256 := h b1 (by simp)
      have h1 : b0 / 4 < 64 := by omega
      have h2 : b0 % 4 * 16 + b1 / 16 < 64 := by omega
      have h3 : b1 % 16 * 4 < 64 := by omega
      simp only [btoa, atob]
      rw [if_neg (sextetChar_ne_61 h3)]
      simp only [if_true]
      simp only [charSextet_sextetChar h1, charSextet_sextetChar h2,
        charSextet_sextetChar h3, List.cons.injEq, and_true]
      omega
  | b0 :: b1 :: b2 :: rest, h => by
      have hb0 : b0 < 256 := h b0 (by simp)
      have hb1 : b1 < 256 := h b1 (by simp)
      have hb2 : b2 < 256 := h b2 (by simp)
      have h1 : b0 / 4 < 64 := by omega
      have h2 : b0 % 4 * 16 + b1 / 16 < 64 := by omega
      have h3 : b1 % 16 * 4 + b2 / 64 < 64 := by omega
      have h4 : b2 % 64 < 64 := by omega
      have ih := atob_btoa rest (fun b hb => h b (by simp [hb]))
      simp only [btoa, atob]
      rw [if_neg (sextetChar_ne_61 h3), if_neg (sextetChar_ne_61 h4)]
      simp only [charSextet_sextetChar h1, charSextet_sextetChar h2,
        charSextet_sextetChar h3, charSextet_sextetChar h4, ih,
        List.cons.injEq, and_true]
      omega

/-- Base64 encoding is injective on byte lists. -/
theorem btoa_injOn {xs ys : List Nat} (hx : ∀ b ∈ xs, b < 256)
    (hy : ∀ b ∈ ys, b < 256) (h : btoa xs = btoa ys) : xs = ys := by
  have := congrArg atob h
  rwa [atob_btoa xs hx, atob_btoa ys hy] at this

/-! ### Encryption Engine (`src/utils/crypto.js`)

`CryptoUtils.encrypt` / `CryptoUtils.decrypt` compose repository code
(the base64 helpers, the blob format, `JSON.stringify`/`parse` and
`TextEncoder`/`TextDecoder` plumbing) with the Web Crypto AES-GCM
primitive.  The platform primitives are bundled in a `Platform`
parameter; its propositional fields are exactly the contracts those
primitives guarantee (serialization round trip on JSON-serializable
values, UTF-8 round trip, authenticated decryption inverting
encryption under the same key and IV).  The master key is fixed
throughout (both functions obtain it from `getOrCreateMasterKey`),
so it is left implicit in `enc`/`dec`. -/

/-- Web-platform primitives used by `encrypt`/`decrypt`, with their
contracts.  Strings are lists of UTF-16 code units, buffers are lists
of bytes. -/
structure Platform where
  Val : Type
  stringify : Val → List Nat
  parse : List Nat → Option Val
  utf8encode : List Nat → List Nat
  utf8decode : List Nat → List Nat
  enc : List Nat → List Nat → List Nat
  dec : List Nat → List Nat → Option (List Nat)
  parse_stringify : ∀ v, parse (stringify v) = some v
  utf8_roundtrip : ∀ s, utf8decode (utf8encode s) = s
  dec_enc : ∀ iv m, dec iv (enc iv m) = some m

/-- The `{ iv, data }` object returned by `CryptoUtils.encrypt`: both
fields are base64 strings (lists of character codes). -/
structure EncryptedBlob where
  iv : List Nat
  data : List Nat
deriving DecidableEq

/-- `CryptoUtils.encrypt`: JSON-stringify, UTF-8 encode, AES-GCM
encrypt under the master key with the IV freshly sampled by
`crypto.getRandomValues` (passed here as the `iv` argument), and
base64 both the IV and the ciphertext. -/
def encrypt (P : Platform) (iv : List Nat) (v : P.Val) : EncryptedBlob :=
  let dataBuffer := P.utf8encode (P.stringify v)
  { iv := btoa iv, data := btoa (P.enc iv dataBuffer) }

/-- `CryptoUtils.decrypt`: base64-decode the IV and ciphertext,
AES-GCM decrypt (authentication failure throws, modelled as `none`),
UTF-8 decode and JSON-parse. -/
def decrypt (P : Platform) (blob : EncryptedBlob) : Option P.Val :=
  let iv := atob blob.iv
  let data := atob blob.data
  (P.dec iv data).bind fun buf => P.parse (P.utf8decode buf)

/-- Concrete platform instance used to evaluate the theorems on
concrete inputs: values are numbers serialized as singleton lists,
UTF-8 is the identity on code-unit lists, and the cipher prepends the
IV and a `0` tag (so that decryption genuinely fails on blobs that
were not produced by encryption). -/
@[reducible] def toyPlatform : Platform where
  Val := Nat
  stringify := fun n => [n]
  parse := List.head?
  utf8encode := id
  utf8decode := id
  enc := fun iv m => iv ++ 0 :: m
  dec := fun iv c =>
    if c.take iv.length = iv then
      match c.drop iv.length with
      | 0 :: m => some m
      | _ => none
    else none
  parse_stringify := fun _ => rfl
  utf8_roundtrip := fun _ => rfl
  dec_enc := by
    intro iv m
    simp [List.take_left, List.drop_left]

/-! ### Secret Store (`src/utils/storage.js`)

`StorageManager.getEncrypted` looks the blob up under the namespaced
key `encrypted_<key>`, returns `null` when absent, and otherwise
decrypts — catching any decryption error and returning `null`.
`chrome.storage.local` is modelled as a partial map from keys to
blobs. -/

/-- `StorageManager.getEncrypted` as implemented: a decryption error
is caught (`catch`) and converted to `null`. -/
def getEncrypted (P : Platform) (store : String → Option EncryptedBlob)
    (key : String) : Option P.Val :=
  match store ("encrypted_" ++ key) with
  | none => none
  | some blob => decrypt P blob

/-- Modelled from the spec: the spec's `getSecret`, which returns
`null` only when no entry is stored and propagates a decryption
failure as an error.  Stated only to compare with the implemented
`getEncrypted`. -/
def getSecretSpec (P : Platform) (store : String → Option EncryptedBlob)
    (key : String) : Except Unit (Option P.Val) :=
  match store ("encrypted_" ++ key) with
  | none => .ok none
  | some blob =>
    match decrypt P blob with
    | some v => .ok (some v)
    | none => .error ()

/-! ### Password hashing (`hashPassword` / `verifyPassword` in
`src/utils/crypto.js`)

PBKDF2 (100,000 iterations, SHA-256, 256 bits) is the platform
primitive `pbkdf2 : password bytes → salt → derived bits`; the
iteration parameters are constants in both functions, so the same
abstract function models both call sites. -/

/-- The `{ salt, hash }` record returned by `hashPassword`; both
fields are base64 strings. -/
structure PasswordRecord where
  salt : List Nat
  hash : List Nat
deriving DecidableEq

/-- `CryptoUtils.hashPassword`: UTF-8 encode the password, derive
bits with PBKDF2 over the freshly sampled 16-byte `salt`
(`generateSalt`, passed as the argument), return both base64. -/
def hashPassword (pbkdf2 : List Nat → List Nat → List Nat)
    (utf8encode : List Nat → List Nat) (password : List Nat)
    (salt : List Nat) : PasswordRecord :=
  { salt := btoa salt, hash := btoa (pbkdf2 (utf8encode password) salt) }

/-- `CryptoUtils.verifyPassword`: decode the stored salt, recompute
the PBKDF2 derivation with the same constant parameters, and compare
the full base64-encoded derived output with the stored hash.  Returns
a boolean; a mismatch is `false`, never an exception. -/
def verifyPassword (pbkdf2 : List Nat → List Nat → List Nat)
    (utf8encode : List Nat → List Nat) (password : List Nat)
    (stored : PasswordRecord) : Bool :=
  let salt := atob stored.salt
  let computedHash := btoa (pbkdf2 (utf8encode password) salt)
  computedHash == stored.hash

/-! ### Stores used to evaluate the secret-store theorems -/

/-- A blob that was not produced by `encrypt` (its ciphertext fails
authentication under `toyPlatform.dec`). -/
def corruptBlob : EncryptedBlob := { iv := btoa [0], data := btoa [1] }

/-- A store holding a tampered entry under the Groq key's namespaced
name. -/
def corruptStore : String → Option EncryptedBlob := fun k =>
  if k = "encrypted_groqApiKey" then some corruptBlob else none

/-- A store with nothing in it. -/
def emptyStore : String → Option EncryptedBlob := fun _ => none

/-- C1: for every JSON-serializable plaintext value, `decrypt`
after `encrypt` under the same master key returns the value
unchanged.  The byte-bound hypotheses state that the random IV and
the AES-GCM ciphertext are byte arrays, which the platform
guarantees. -/
theorem decrypt_encrypt_roundtrip (P : Platform) (iv : List Nat)
    (v : P.Val) (hiv : ∀ b ∈ iv, b < 256)
    (hct : ∀ b ∈ P.enc iv (P.utf8encode (P.stringify v)), b < 256) :
    decrypt P (encrypt P iv v) = some v := by
  simp only [encrypt, decrypt]
  rw [atob_btoa iv hiv, atob_btoa _ hct, P.dec_enc]
  simp [P.utf8_roundtrip, P.parse_stringify]

/-- Witness: the round trip evaluated on a concrete platform, IV and
value. -/
theorem decrypt_encrypt_roundtrip_witness :
    decrypt toyPlatform (encrypt toyPlatform [0, 1, 2] 5) = some 5 :=
  decrypt_encrypt_roundtrip toyPlatform [0, 1, 2] 5 (by decide) (by decide)

/-- C3: `encrypt` samples a fresh random IV on every call (the `iv`
argument is the per-call `crypto.getRandomValues` draw), so two calls
whose independent draws differ produce blobs with different IVs and —
since AES-GCM ciphertexts under distinct IVs differ, the `hcne`
hypothesis — different ciphertext bytes. -/
theorem encrypt_fresh_iv_distinct (P : Platform) (iv₁ iv₂ : List Nat)
    (v : P.Val) (h1 : ∀ b ∈ iv₁, b < 256) (h2 : ∀ b ∈ iv₂, b < 256)
    (hne : iv₁ ≠ iv₂)
    (hc1 : ∀ b ∈ P.enc iv₁ (P.utf8encode (P.stringify v)), b < 256)
    (hc2 : ∀ b ∈ P.enc iv₂ (P.utf8encode (P.stringify v)), b < 256)
    (hcne : P.enc iv₁ (P.utf8encode (P.stringify v)) ≠
      P.enc iv₂ (P.utf8encode (P.stringify v))) :
    (encrypt P iv₁ v).iv ≠ (encrypt P iv₂ v).iv ∧
    (encrypt P iv₁ v).data ≠ (encrypt P iv₂ v).data := by
  simp only [encrypt]
  exact ⟨fun h => hne (btoa_injOn h1 h2 h),
    fun h => hcne (btoa_injOn hc1 hc2 h)⟩

/-- Witness: two concrete distinct IV draws give distinct blob fields. -/
theorem encrypt_fresh_iv_distinct_witness :
    (encrypt toyPlatform [0] 5).iv ≠ (encrypt toyPlatform [1] 5).iv ∧
    (encrypt toyPlatform [0] 5).data ≠ (encrypt toyPlatform [1] 5).data :=
  encrypt_fresh_iv_distinct toyPlatform [0] [1] 5 (by decide) (by decide)
    (by decide) (by decide) (by decide) (by decide)

/-- C2 counterexample: the implemented `getEncrypted` returns `null`
for a stored-but-undecryptable entry, exactly as for an absent entry —
the decryption failure is caught and converted to `null`, not
propagated, so the two situations are not distinguishable. -/
theorem getEncrypted_conflates_failure_with_absent :
    corruptStore "encrypted_groqApiKey" ≠ none ∧
    decrypt toyPlatform corruptBlob = none ∧
    getEncrypted toyPlatform corruptStore "groqApiKey" = none ∧
    getEncrypted toyPlatform emptyStore "groqApiKey" = none ∧
    getSecretSpec toyPlatform corruptStore "groqApiKey" = .error () := by
  refine ⟨by decide, by decide, by decide, by decide, by rfl⟩

/-- C2 amended: `getEncrypted` returns `null` both when no entry is
stored under the namespaced name and when decryption of the stored
entry fails; a decryption failure is never propagated as an error. -/
theorem getEncrypted_none_of_absent_or_failure (P : Platform)
    (store : String → Option EncryptedBlob) (key : String) :
    (store ("encrypted_" ++ key) = none →
      getEncrypted P store key = none) ∧
    (∀ blob, store ("encrypted_" ++ key) = some blob →
      decrypt P blob = none → getEncrypted P store key = none) := by
  constructor
  · intro h
    simp [getEncrypted, h]
  · intro blob hb hd
    simp [getEncrypted, hb, hd]

/-- Witness: the amended statement evaluated on the empty store and on
the store with a tampered entry. -/
theorem getEncrypted_none_witness :
    getEncrypted toyPlatform emptyStore "k" = none ∧
    getEncrypted toyPlatform corruptStore "groqApiKey" = none :=
  ⟨(getEncrypted_none_of_absent_or_failure toyPlatform emptyStore "k").1
      rfl,
   (getEncrypted_none_of_absent_or_failure toyPlatform corruptStore
      "groqApiKey").2 corruptBlob (by decide) (by decide)⟩

/-- C4: verification succeeds on the password used for hashing and
fails on any password whose PBKDF2 derivation at the stored salt
differs (for the real PBKDF2 this is what distinguishes `p2 ≠ p`,
collisions of the derivation aside); `verifyPassword` compares the
full derived output and returns a boolean rather than throwing. -/
theorem verifyPassword_hashPassword
    (pbkdf2 : List Nat → List Nat → List Nat)
    (utf8encode : List Nat → List Nat) (p p2 salt : List Nat)
    (hsalt : ∀ b ∈ salt, b < 256)
    (hd1 : ∀ b ∈ pbkdf2 (utf8encode p) salt, b < 256)
    (hd2 : ∀ b ∈ pbkdf2 (utf8encode p2) salt, b < 256)
    (hdiff : pbkdf2 (utf8encode p2) salt ≠ pbkdf2 (utf8encode p) salt) :
    verifyPassword pbkdf2 utf8encode p
      (hashPassword pbkdf2 utf8encode p salt) = true ∧
    verifyPassword pbkdf2 utf8encode p2
      (hashPassword pbkdf2 utf8encode p salt) = false := by
  simp only [verifyPassword, hashPassword, atob_btoa salt hsalt]
  constructor
  · simp
  · simp only [beq_eq_false_iff_ne, ne_eq]
    intro h
    exact hdiff (btoa_injOn hd2 hd1 h)

/-- Witness: a concrete derivation function, matching and mismatching
passwords. -/
theorem verifyPassword_hashPassword_witness :
    verifyPassword (fun pw s => pw ++ s) id [1, 2]
      (hashPassword (fun pw s => pw ++ s) id [1, 2] [9]) = true ∧
    verifyPassword (fun pw s => pw ++ s) id [3]
      (hashPassword (fun pw s => pw ++ s) id [1, 2] [9]) = false :=
  verifyPassword_hashPassword (fun pw s => pw ++ s) id [1, 2] [3] [9]
    (by decide) (by decide) (by decide) (by decide)

/-! ### Session Store (`SessionManager` in `src/utils/storage.js`)

Sessions live in one persisted list; every mutation is a
read-modify-write of the whole list.  `chrome` string payloads
(ids, names, ISO timestamps) are Lean `String`s here. -/

/-- One entry of a session's rolling `contents` context window. -/
structure Content where
  title : String
  summary : String
  timestamp : String
deriving DecidableEq

/-- A knowledge session as created by `SessionManager.createSession`.
The JS guards `if (!session.contents)` and `contentCount || 0` only
paper over legacy records, so `contents`/`contentCount` are total
here. -/
structure Session where
  id : String
  name : String
  createdAt : String
  notionPageId : Option String
  contents : List Content
  contentCount : Nat
deriving DecidableEq

/-- The persisted session list plus the process-wide `totalNotes`
lifetime capture counter. -/
structure Store where
  sessions : List Session
  totalNotes : Nat
deriving DecidableEq

/-- The fresh record built by `createSession`: no remote page,
empty rolling context, zero count. -/
def newSession (id name createdAt : String) : Session :=
  { id := id, name := name, createdAt := createdAt,
    notionPageId := none, contents := [], contentCount := 0 }

/-- JS `array.find(...)` followed by in-place mutation of the found
element and a write-back of the whole list: replace the first element
satisfying `p`. -/
def updateFirst {α : Type} (p : α → Bool) (f : α → α) : List α → List α
  | [] => []
  | x :: rest => if p x then f x :: rest else x :: updateFirst p f rest

/-- The mutation `addContentToSession` applies to the found session:
push `{title, summary.substring(0,300), timestamp}`, increment
`contentCount`, and keep only the last 30 contents (`slice(-30)`)
when the list exceeds 30. -/
def addContent (s : Session) (title summary ts : String) : Session :=
  let contents :=
    s.contents ++ [{ title := title, summary := summary.take 300,
                     timestamp := ts }]
  let contents :=
    if contents.length > 30 then contents.drop (contents.length - 30)
    else contents
  { s with contents := contents, contentCount := s.contentCount + 1 }

/-- `SessionManager.addContentToSession`: look the session up by id;
if absent return `null` without touching storage; otherwise mutate
it, write the list back, bump `totalNotes`, and return the mutated
session. -/
def addContentToSession (st : Store) (sid title summary ts : String) :
    Store × Option Session :=
  match st.sessions.find? (fun s => s.id == sid) with
  | none => (st, none)
  | some s =>
    ({ sessions := updateFirst (fun s => s.id == sid)
         (fun s => addContent s title summary ts) st.sessions,
       totalNotes := st.totalNotes + 1 },
     some (addContent s title summary ts))

/-- Repeated captures on the same session id, threading the store. -/
def addContentToSessionIter (st : Store) (sid : String) :
    List (String × String × String) → Store
  | [] => st
  | i :: rest =>
      addContentToSessionIter (addContentToSession st sid i.1 i.2.1 i.2.2).1
        sid rest

/-- The session-level effect of repeated captures. -/
def addContentIter (s : Session) :
    List (String × String × String) → Session
  | [] => s
  | i :: rest => addContentIter (addContent s i.1 i.2.1 i.2.2) rest

/-- The `contents` entry a capture input turns into. -/
def contentOf (i : String × String × String) : Content :=
  { title := i.1, summary := i.2.1.take 300, timestamp := i.2.2 }

theorem suffix_append_right {α : Type} {l₁ l₂ : List α} (t : List α)
    (h : l₁ <:+ l₂) : l₁ ++ t <:+ l₂ ++ t := by
  obtain ⟨w, rfl⟩ := h
  exact ⟨w, (List.append_assoc _ _ _).symm⟩

theorem addContent_contentCount (s : Session) (t sm ts : String) :
    (addContent s t sm ts).contentCount = s.contentCount + 1 := rfl

theorem addContent_notionPageId (s : Session) (t sm ts : String) :
    (addContent s t sm ts).notionPageId = s.notionPageId := rfl

theorem addContent_contents_length (s : Session) (t sm ts : String) :
    (addContent s t sm ts).contents.length =
      min (s.contents.length + 1) 30 ∨
    (30 < s.contents.length ∧
      (addContent s t sm ts).contents.length = 30) := by
  simp only [addContent]
  split
  · rename_i hgt
    simp only [List.length_append, List.length_cons, List.length_nil,
      List.length_drop] at hgt ⊢
    omega
  · rename_i hle
    simp only [List.length_append, List.length_cons, List.length_nil,
      not_lt] at hle ⊢
    omega

theorem addContent_contents_suffix (s : Session)
    (i : String × String × String) :
    (addContent s i.1 i.2.1 i.2.2).contents <:+
      s.contents ++ [contentOf i] := by
  simp only [addContent, contentOf]
  split
  · exact List.drop_suffix _ _
  · exact List.suffix_refl _

theorem addContentIter_invariant
    (inputs : List (String × String × String)) :
    ∀ (s : Session), s.contents.length ≤ 30 →
    (addContentIter s inputs).contentCount =
      s.contentCount + inputs.length ∧
    (addContentIter s inputs).contents.length =
      min (s.contents.length + inputs.length) 30 ∧
    (addContentIter s inputs).contents <:+
      s.contents ++ inputs.map contentOf := by
  induction inputs with
  | nil =>
      intro s h
      refine ⟨rfl, ?_, by simp [addContentIter]⟩
      simp only [addContentIter, List.length_nil, Nat.add_zero]
      omega
  | cons i rest ih =>
      intro s h
      have hcount := addContent_contentCount s i.1 i.2.1 i.2.2
      have hlen : (addContent s i.1 i.2.1 i.2.2).contents.length =
          min (s.contents.length + 1) 30 := by
        rcases addContent_contents_length s i.1 i.2.1 i.2.2 with h1 | h1
        · exact h1
        · omega
      have h30 : (addContent s i.1 i.2.1 i.2.2).contents.length ≤ 30 := by
        omega
      obtain ⟨ihc, ihl, ihs⟩ := ih (addContent s i.1 i.2.1 i.2.2) h30
      refine ⟨?_, ?_, ?_⟩
      · simp only [addContentIter, List.length_cons]
        omega
      · simp only [addContentIter, List.length_cons]
        rw [ihl, hlen]
        omega
      · simp only [addContentIter, List.map_cons]
        refine ihs.trans ?_
        have := suffix_append_right (rest.map contentOf)
          (addContent_contents_suffix s i)
        simpa [List.append_assoc] using this

theorem find?_updateFirst {α : Type} (p : α → Bool) (f : α → α)
    (hp : ∀ x, p x = true → p (f x) = true) :
    ∀ (l : List α) (s : α), l.find? p = some s →
      (updateFirst p f l).find? p = some (f s)
  | [], s, h => by simp at h
  | x :: rest, s, h => by
      by_cases hx : p x = true
      · rw [List.find?_cons_of_pos _ hx] at h
        injection h with h
        subst h
        simp [updateFirst, hx, List.find?_cons_of_pos _ (hp x hx)]
      · rw [List.find?_cons_of_neg _ hx] at h
        simp only [updateFirst, if_neg hx]
        rw [List.find?_cons_of_neg _ hx]
        exact find?_updateFirst p f hp rest s h

theorem addContentToSessionIter_found (sid : String)
    (inputs : List (String × String × String)) :
    ∀ (st : Store) (s : Session),
      st.sessions.find? (fun x => x.id == sid) = some s →
      (addContentToSessionIter st sid inputs).sessions.find?
          (fun x => x.id == sid) = some (addContentIter s inputs) ∧
      (addContentToSessionIter st sid inputs).totalNotes =
        st.totalNotes + inputs.length := by
  induction inputs with
  | nil =>
      intro st s h
      exact ⟨by simpa [addContentToSessionIter, addContentIter] using h,
        rfl⟩
  | cons i rest ih =>
      intro st s h
      have hfind' := find?_updateFirst (fun x => x.id == sid)
        (fun x => addContent x i.1 i.2.1 i.2.2) (fun x hx => hx)
        st.sessions s h
      obtain ⟨ih1, ih2⟩ := ih
        { sessions := updateFirst (fun x => x.id == sid)
            (fun x => addContent x i.1 i.2.1 i.2.2) st.sessions,
          totalNotes := st.totalNotes + 1 }
        (addContent s i.1 i.2.1 i.2.2) hfind'
      constructor
      · simpa [addContentToSessionIter, addContentToSession, h,
          addContentIter] using ih1
      · simp only [addContentToSessionIter, addContentToSession, h,
          List.length_cons]
        simp only [addContentToSession, h] at ih2
        omega

/-- C5: starting from any session holding at most 30 context entries
(as `createSession` does), after any number of captures the session's
`contents` length equals `min (initial + n) 30` — in particular never
exceeds 30 — the surviving entries are a suffix of the full appended
history (oldest evicted first), while `contentCount` and the lifetime
`totalNotes` counter grow by exactly the number of successful calls,
uncapped. -/
theorem session_rolling_window (st : Store) (sid : String) (s : Session)
    (inputs : List (String × String × String))
    (hfind : st.sessions.find? (fun x => x.id == sid) = some s)
    (h30 : s.contents.length ≤ 30) :
    (addContentToSessionIter st sid inputs).sessions.find?
        (fun x => x.id == sid) = some (addContentIter s inputs) ∧
    (addContentIter s inputs).contents.length ≤ 30 ∧
    (addContentIter s inputs).contents.length =
      min (s.contents.length + inputs.length) 30 ∧
    (addContentIter s inputs).contentCount =
      s.contentCount + inputs.length ∧
    (addContentIter s inputs).contents <:+
      s.contents ++ inputs.map contentOf ∧
    (addContentToSessionIter st sid inputs).totalNotes =
      st.totalNotes + inputs.length := by
  obtain ⟨h1, h2⟩ := addContentToSessionIter_found sid inputs st s hfind
  obtain ⟨hc, hl, hs⟩ := addContentIter_invariant inputs s h30
  exact ⟨h1, by omega, hl, hc, hs, h2⟩

/-- Session and store used to evaluate the session-store theorems. -/
def demoSession : Session := newSession "a" "Research A" "2026-01-01"

/-- A store holding just `demoSession`. -/
def demoStore : Store := { sessions := [demoSession], totalNotes := 0 }

/-- 32 capture inputs — enough to exercise the 30-entry eviction. -/
def demoInputs : List (String × String × String) :=
  List.replicate 32 ("T", "S", "ts")

/-- Witness: the rolling-window invariant evaluated on a fresh
session and 32 captures (`contents` capped at 30, `contentCount` and
`totalNotes` reaching 32). -/
theorem session_rolling_window_witness :
    (addContentToSessionIter demoStore "a" demoInputs).sessions.find?
        (fun x => x.id == "a") =
      some (addContentIter demoSession demoInputs) ∧
    (addContentIter demoSession demoInputs).contents.length ≤ 30 ∧
    (addContentIter demoSession demoInputs).contents.length =
      min (demoSession.contents.length + demoInputs.length) 30 ∧
    (addContentIter demoSession demoInputs).contentCount =
      demoSession.contentCount + demoInputs.length ∧
    (addContentIter demoSession demoInputs).contents <:+
      demoSession.contents ++ demoInputs.map contentOf ∧
    (addContentToSessionIter demoStore "a" demoInputs).totalNotes =
      demoStore.totalNotes + demoInputs.length :=
  session_rolling_window demoStore "a" demoSession demoInputs
    (by decide) (by decide)

/-- C10: a capture against a session id that is not in the stored
list returns `null` and leaves the store — session list and
`totalNotes` — unchanged. -/
theorem addContentToSession_unknown_id (st : Store)
    (sid title summary ts : String)
    (h : st.sessions.find? (fun s => s.id == sid) = none) :
    addContentToSession st sid title summary ts = (st, none) := by
  simp [addContentToSession, h]

/-- Witness: an unknown-id capture on a concrete store. -/
theorem addContentToSession_unknown_id_witness :
    addContentToSession demoStore "b" "T" "S" "ts" = (demoStore, none) :=
  addContentToSession_unknown_id demoStore "b" "T" "S" "ts" (by decide)

/-! ### Capture Orchestrator (`handleMapping` and `processWithGroq` in
`src/background.js`)

The per-capture control flow, with `chrome.storage` reads, the two
network collaborators' outcomes and the current clock packed into an
environment.  Network calls are recorded in an ordered log so the
theorems can talk about which remote operations a capture performs. -/

/-- `SessionManager.getActiveSession`: find the session whose id is
the stored active id (`null`/no match gives `null`). -/
def getActiveSession (sessions : List Session)
    (activeId : Option String) : Option Session :=
  match activeId with
  | none => none
  | some aid => sessions.find? (fun s => s.id == aid)

/-- `SessionManager.updateSession`: find by id, shallow-merge the
update into the found record, write the list back; `null` when the id
is unknown. -/
def updateSession (sessions : List Session) (sid : String)
    (upd : Session → Session) : List Session × Option Session :=
  match sessions.find? (fun s => s.id == sid) with
  | none => (sessions, none)
  | some s => (updateFirst (fun s => s.id == sid) upd sessions, some (upd s))

/-- The read-only projection `SessionManager.getSessionContext`
returns; defaults when the id is unknown. -/
structure SessionContext where
  sessionName : String
  notionPageId : Option String
  contents : List Content
  contentCount : Nat
deriving DecidableEq

/-- `SessionManager.getSessionContext`. -/
def getSessionContext (sessions : List Session) (sid : String) :
    SessionContext :=
  match sessions.find? (fun s => s.id == sid) with
  | some s =>
    { sessionName := s.name, notionPageId := s.notionPageId,
      contents := s.contents, contentCount := s.contentCount }
  | none =>
    { sessionName := "Default", notionPageId := none, contents := [],
      contentCount := 0 }

/-- ASCII whitespace, the common case of the JS `\s` class used by
`selectedText.split` in the Groq fallback. -/
def jsIsWs (c : Char) : Bool :=
  c == ' ' || c == '\t' || c == '\n' || c == '\r' || c == '\x0b' ||
  c == '\x0c'

/-- Worker for `jsSplitWs`; `fuel` bounds the remaining input length
so the recursion is structural, `acc` holds the current field's
characters reversed.  Splitting on a whitespace run also consumes the
rest of the run (`dropWhile`), matching the maximal-run regex
`/\s+/`. -/
def jsSplitWsAux : Nat → List Char → List Char → List String
  | _, [], acc => [String.mk acc.reverse]
  | 0, _ :: _, _ => []
  | fuel + 1, c :: cs, acc =>
      if jsIsWs c then
        String.mk acc.reverse ::
          jsSplitWsAux fuel (cs.dropWhile jsIsWs) []
      else jsSplitWsAux fuel cs (c :: acc)

/-- JS `text.split(/\s+/)`: fields between maximal whitespace runs,
including an empty leading/trailing field when the text starts/ends
with whitespace, and `[""]` on empty input. -/
def jsSplitWs (text : String) : List String :=
  jsSplitWsAux text.data.length text.data []

/-- The deterministic structuring fallback title:
`selectedText.split(/\s+/).slice(0, 5).join(' ') + '...'`. -/
def fallbackTitle (text : String) : String :=
  String.intercalate " " ((jsSplitWs text).take 5) ++ "..."

/-- One connection record in the structuring service's output. -/
structure Connection where
  toSection : String
  relationship : String
deriving DecidableEq

/-- The structured result `processWithGroq` returns to the capture
flow. -/
structure Structured where
  sectionTitle : String
  connections : List Connection
deriving DecidableEq

/-- The JSON object parsed from the model's reply; either field may
be missing. -/
structure ParsedGroq where
  sectionTitle : Option String
  connections : Option (List Connection)
deriving DecidableEq

/-- JS `x || d` on an optional string: `undefined` and `""` are
falsy. -/
def jsOrString (o : Option String) (d : String) : String :=
  match o with
  | some s => if s == "" then d else s
  | none => d

/-- JS truthiness of an optional string (`undefined`/`null`/`""` are
falsy). -/
def strTruthy : Option String → Bool
  | none => false
  | some s => s != ""

/-- `processWithGroq`, with the whole fallible service interaction
(fetch, HTTP status check, `JSON.parse` of the reply) summarized by
`groqResult`: on success, defaulted title/connections from the parsed
object; on any failure, the first-5-words fallback title and no
connections.  The catch swallows the error — structuring failure
never escapes. -/
def processWithGroq (groqResult : Except String ParsedGroq)
    (selectedText : String) : Structured :=
  match groqResult with
  | .ok parsed =>
    { sectionTitle := jsOrString parsed.sectionTitle "New Section",
      connections := parsed.connections.getD [] }
  | .error _ =>
    { sectionTitle := fallbackTitle selectedText, connections := [] }

/-- Decrypted Notion credentials. -/
structure Creds where
  token : String
  databaseId : String
deriving DecidableEq

/-- Kind of a toast notification sent to the tab. -/
inductive NotifType
  | info
  | success
  | error
deriving DecidableEq

/-- A `sendNotification` payload. -/
structure Notif where
  message : String
  ntype : NotifType
deriving DecidableEq

/-- A remote operation attempted by the capture, with the payload
fields the spec's claims talk about.  `notionCreate` stands for the
whole page-creation interaction of `createNotionPage`,
`notionAppend` for the block append of `appendToNotionPage`. -/
inductive NetCall
  | groq
  | notionCreate (sessionName content sourceUrl sectionTitle : String)
  | notionAppend (pageId content sourceUrl sectionTitle : String)
      (connections : List Connection)
deriving DecidableEq

/-- Everything `handleMapping` reads from storage plus the outcomes
of the external collaborators, fixed for one capture event. -/
structure Env where
  setupComplete : Option Bool
  isLocked : Option Bool
  activeSessionId : Option String
  groqApiKey : Option String
  notionCreds : Option Creds
  groqResult : Except String ParsedGroq
  notionCreateResult : Except String String
  notionAppendResult : Except String String
  ts : String

/-- Result of one capture: notifications in order, the log of remote
calls attempted, and the final store. -/
structure HMResult where
  notifs : List Notif
  calls : List NetCall
  store : Store
deriving DecidableEq

/-- The successful tail of `handleMapping`: record the capture into
the session's rolling context (summary = first 300 chars of the raw
text) and report success. -/
def finishCapture (st : Store) (sid : String) (structured : Structured)
    (selectedText ts : String) (processing : Notif)
    (calls : List NetCall) : HMResult :=
  let st' := (addContentToSession st sid structured.sectionTitle
    (selectedText.take 300) ts).1
  { notifs := [processing, ⟨"Mapped successfully!", .success⟩],
    calls := calls, store := st' }

/-- The append branch of the storing step (`session.notionPageId`
present): one `appendToNotionPage` call; a non-2xx response throws
`Notion API error: ...`, caught by the outer handler. -/
def handleAppend (env : Env) (st : Store)
    (selectedText sourceUrl : String) (processing : Notif)
    (structured : Structured) (sid pid : String) : HMResult :=
  let calls := [NetCall.groq,
    NetCall.notionAppend pid selectedText sourceUrl
      structured.sectionTitle structured.connections]
  match env.notionAppendResult with
  | .error msg =>
    { notifs := [processing, ⟨"Error: Notion API error: " ++ msg,
        .error⟩],
      calls := calls, store := st }
  | .ok _ =>
    finishCapture st sid structured selectedText env.ts processing calls

/-- The create branch of the storing step (no `notionPageId`): one
`createNotionPage` interaction; on success the returned page id is
persisted onto the session via `updateSession` before the context
update. -/
def handleCreate (env : Env) (st : Store)
    (selectedText sourceUrl : String) (processing : Notif)
    (structured : Structured) (sid sessionName : String) : HMResult :=
  let calls := [NetCall.groq,
    NetCall.notionCreate sessionName selectedText sourceUrl
      structured.sectionTitle]
  match env.notionCreateResult with
  | .error msg =>
    { notifs := [processing, ⟨"Error: Notion API error: " ++ msg,
        .error⟩],
      calls := calls, store := st }
  | .ok pageId =>
    let sessions' := (updateSession st.sessions sid
      (fun s => { s with notionPageId := some pageId })).1
    finishCapture { sessions := sessions', totalNotes := st.totalNotes }
      sid structured selectedText env.ts processing calls

/-- `handleMapping`: validation in source order (setup flag, lock
flag, active session id, decrypted Groq key, decrypted Notion
credentials — each failure notifies and returns before any network
call), then structuring (with fallback), then the storing branch on
the re-fetched active session's `notionPageId`, then the session
context update. -/
def handleMapping (env : Env) (st : Store)
    (selectedText sourceUrl : String) : HMResult :=
  if env.setupComplete ≠ some true then
    { notifs := [⟨"Please complete setup first", .error⟩], calls := [],
      store := st }
  else if env.isLocked = some true then
    { notifs := [⟨"Extension is locked. Please unlock first.",
        .error⟩],
      calls := [], store := st }
  else if strTruthy env.activeSessionId = false then
    { notifs := [⟨"No active session. Please create one first.",
        .error⟩],
      calls := [], store := st }
  else
    let sid := env.activeSessionId.getD ""
    let processing : Notif := ⟨"Processing...", .info⟩
    let ctx := getSessionContext st.sessions sid
    if strTruthy env.groqApiKey = false then
      { notifs := [processing, ⟨"Groq API key not found", .error⟩],
        calls := [], store := st }
    else
      match env.notionCreds with
      | none =>
        { notifs := [processing, ⟨"Notion credentials not found",
            .error⟩],
          calls := [], store := st }
      | some _ =>
        let structured := processWithGroq env.groqResult selectedText
        match getActiveSession st.sessions env.activeSessionId with
        | some s =>
          if strTruthy s.notionPageId then
            handleAppend env st selectedText sourceUrl processing
              structured sid (s.notionPageId.getD "")
          else
            handleCreate env st selectedText sourceUrl processing
              structured sid ctx.sessionName
        | none =>
          handleCreate env st selectedText sourceUrl processing
            structured sid ctx.sessionName

/-- Remote calls that write to the document store. -/
def isStorageWrite : NetCall → Bool
  | .groq => false
  | _ => true

/-- Section title carried by a storage write. -/
def callSectionTitle : NetCall → Option String
  | .notionCreate _ _ _ t => some t
  | .notionAppend _ _ _ t _ => some t
  | .groq => none

/-- Connection records carried by a storage write (`createNotionPage`
sends none). -/
def callConnections : NetCall → List Connection
  | .notionAppend _ _ _ _ cs => cs
  | _ => []

/-- C7: when setup is complete and the extension is unlocked but no
active session id is stored (or it is empty), the capture fails with
the no-active-session message, attempts no network call at all, and
leaves the store untouched. -/
theorem handleMapping_no_active_session (env : Env) (st : Store)
    (selectedText sourceUrl : String)
    (hsetup : env.setupComplete = some true)
    (hlock : env.isLocked ≠ some true)
    (hsid : strTruthy env.activeSessionId = false) :
    handleMapping env st selectedText sourceUrl =
      { notifs := [⟨"No active session. Please create one first.",
          NotifType.error⟩],
        calls := [], store := st } := by
  simp [handleMapping, hsetup, hlock, hsid]

/-- Environment with no active session, used to evaluate C7. -/
def envNoSession : Env :=
  { setupComplete := some true, isLocked := some false,
    activeSessionId := none, groqApiKey := some "gk",
    notionCreds := some { token := "t", databaseId := "d" },
    groqResult := .error "HTTP 500",
    notionCreateResult := .ok "pg", notionAppendResult := .ok "",
    ts := "2026-01-01" }

/-- Witness: the no-active-session capture on a concrete
environment. -/
theorem handleMapping_no_active_session_witness :
    handleMapping envNoSession demoStore "some text" "https://e.x" =
      { notifs := [⟨"No active session. Please create one first.",
          NotifType.error⟩],
        calls := [], store := demoStore } :=
  handleMapping_no_active_session envNoSession demoStore "some text"
    "https://e.x" rfl (by decide) rfl

/-- C6: when the structuring service fails but the preconditions hold
and the document store accepts the write, the capture still succeeds
(success notification), performs exactly one storage write, and that
write carries the first-5-words-plus-ellipsis fallback title and no
connection records. -/
theorem capture_survives_structuring_failure (env : Env) (st : Store)
    (selectedText sourceUrl : String) (c : Creds)
    (emsg pid ar : String)
    (hsetup : env.setupComplete = some true)
    (hlock : env.isLocked ≠ some true)
    (hsid : strTruthy env.activeSessionId = true)
    (hkey : strTruthy env.groqApiKey = true)
    (hcreds : env.notionCreds = some c)
    (hgroq : env.groqResult = .error emsg)
    (hcr : env.notionCreateResult = .ok pid)
    (hap : env.notionAppendResult = .ok ar) :
    (handleMapping env st selectedText sourceUrl).notifs =
      [⟨"Processing...", NotifType.info⟩,
       ⟨"Mapped successfully!", NotifType.success⟩] ∧
    ((handleMapping env st selectedText sourceUrl).calls.filter
      isStorageWrite).length = 1 ∧
    ∀ call ∈ (handleMapping env st selectedText sourceUrl).calls.filter
        isStorageWrite,
      callSectionTitle call = some (fallbackTitle selectedText) ∧
      callConnections call = [] := by
  have hstruct : processWithGroq env.groqResult selectedText =
      { sectionTitle := fallbackTitle selectedText,
        connections := [] } := by
    rw [hgroq]
    rfl
  simp only [handleMapping, hsetup, hlock, hsid, hkey, hcreds, hstruct,
    ne_eq, not_true_eq_false, if_false, Bool.true_eq_false,
    Bool.false_eq_true]
  rcases hsess : getActiveSession st.sessions env.activeSessionId with
    _ | s
  · simp [handleCreate, hcr, finishCapture, isStorageWrite,
      callSectionTitle, callConnections]
  · by_cases hpid : strTruthy s.notionPageId = true
    · simp [hpid, handleAppend, hap, finishCapture, isStorageWrite,
        callSectionTitle, callConnections]
    · simp only [Bool.not_eq_true] at hpid
      simp [hpid, handleCreate, hcr, finishCapture, isStorageWrite,
        callSectionTitle, callConnections]

/-- Environment for a capture whose structuring call fails with HTTP
500 while everything else is configured. -/
def envGroqFail : Env :=
  { setupComplete := some true, isLocked := some false,
    activeSessionId := some "a", groqApiKey := some "gk",
    notionCreds := some { token := "t", databaseId := "d" },
    groqResult := .error "HTTP 500",
    notionCreateResult := .ok "pg", notionAppendResult := .ok "",
    ts := "2026-01-01" }

/-- Witness: the structuring-failure capture on a concrete store. -/
theorem capture_survives_structuring_failure_witness :
    (handleMapping envGroqFail demoStore "alpha beta gamma delta"
      "https://e.x").notifs =
      [⟨"Processing...", NotifType.info⟩,
       ⟨"Mapped successfully!", NotifType.success⟩] ∧
    ((handleMapping envGroqFail demoStore "alpha beta gamma delta"
      "https://e.x").calls.filter isStorageWrite).length = 1 ∧
    ∀ call ∈ (handleMapping envGroqFail demoStore
        "alpha beta gamma delta" "https://e.x").calls.filter
        isStorageWrite,
      callSectionTitle call =
        some (fallbackTitle "alpha beta gamma delta") ∧
      callConnections call = [] :=
  capture_survives_structuring_failure envGroqFail demoStore
    "alpha beta gamma delta" "https://e.x"
    { token := "t", databaseId := "d" } "HTTP 500" "pg" ""
    rfl (by decide) rfl rfl rfl rfl rfl rfl

/-- C8: with all preconditions satisfied, the storing step branches
on the active session's remote page id: when it is present the
capture appends to that page and creates none; when it is absent the
capture creates a page and persists the returned id onto the session
via `updateSession`. -/
theorem handleMapping_storing_branches (env : Env) (st : Store)
    (selectedText sourceUrl sid : String) (c : Creds)
    (hsetup : env.setupComplete = some true)
    (hlock : env.isLocked ≠ some true)
    (hsid : env.activeSessionId = some sid)
    (hsid' : sid ≠ "")
    (hkey : strTruthy env.groqApiKey = true)
    (hcreds : env.notionCreds = some c) :
    (∀ s pid ar, st.sessions.find? (fun x => x.id == sid) = some s →
      s.notionPageId = some pid → pid ≠ "" →
      env.notionAppendResult = .ok ar →
      (handleMapping env st selectedText sourceUrl).calls =
        [.groq, .notionAppend pid selectedText sourceUrl
          (processWithGroq env.groqResult selectedText).sectionTitle
          (processWithGroq env.groqResult selectedText).connections]) ∧
    (∀ s pid2, st.sessions.find? (fun x => x.id == sid) = some s →
      s.notionPageId = none →
      env.notionCreateResult = .ok pid2 →
      (handleMapping env st selectedText sourceUrl).calls =
        [.groq, .notionCreate
          (getSessionContext st.sessions sid).sessionName selectedText
          sourceUrl
          (processWithGroq env.groqResult selectedText).sectionTitle] ∧
      Option.map Session.notionPageId
        ((handleMapping env st selectedText sourceUrl).store.sessions.find?
          (fun x => x.id == sid)) = some (some pid2)) := by
  have hT : strTruthy (some sid) = true := by
    simpa [strTruthy] using hsid'
  constructor
  · intro s pid ar hfind hpid hpidne hap
    have hsess2 : getActiveSession st.sessions (some sid) = some s := by
      simpa [getActiveSession] using hfind
    have hpidT : strTruthy (some pid) = true := by
      simpa [strTruthy] using hpidne
    simp [handleMapping, hsetup, hlock, hsid, hT, hkey, hcreds,
      hsess2, hpidT, hpid, handleAppend, hap, finishCapture]
  · intro s pid2 hfind hpid hcr
    have hsess2 : getActiveSession st.sessions (some sid) = some s := by
      simpa [getActiveSession] using hfind
    have hpidT : strTruthy s.notionPageId = false := by
      rw [hpid]
      rfl
    have h2 := find?_updateFirst (fun x => x.id == sid)
      (fun x => { x with notionPageId := some pid2 })
      (fun x hx => hx) st.sessions s hfind
    constructor
    · simp [handleMapping, hsetup, hlock, hsid, hT, hkey, hcreds,
        hsess2, hpidT, handleCreate, hcr, finishCapture]
    · have h3 := find?_updateFirst (fun x => x.id == sid)
        (fun x => addContent x
          (processWithGroq env.groqResult selectedText).sectionTitle
          (selectedText.take 300) env.ts)
        (fun x hx => hx)
        (updateFirst (fun x => x.id == sid)
          (fun x => { x with notionPageId := some pid2 }) st.sessions)
        { s with notionPageId := some pid2 } h2
      simp [handleMapping, hsetup, hlock, hsid, hT, hkey, hcreds,
        hsess2, hpidT, handleCreate, hcr, finishCapture, updateSession,
        hfind, addContentToSession, h2, h3, addContent_notionPageId]

/-- A session that already carries a remote page id. -/
def demoSessionWithPage : Session :=
  { demoSession with notionPageId := some "pg0" }

/-- A store whose only session already has a remote page. -/
def demoStoreWithPage : Store :=
  { sessions := [demoSessionWithPage], totalNotes := 0 }

/-- Environment for captures with a configured, unlocked setup and an
active session `"a"`; the structuring service succeeds here. -/
def envReady : Env :=
  { setupComplete := some true, isLocked := some false,
    activeSessionId := some "a", groqApiKey := some "gk",
    notionCreds := some { token := "t", databaseId := "d" },
    groqResult := .ok { sectionTitle := some "Sec",
                        connections := some [] },
    notionCreateResult := .ok "pg1", notionAppendResult := .ok "",
    ts := "2026-01-01" }

/-- Witness: the storing branch evaluated on a session with a page
(append, no create) and on a fresh session (create, id persisted). -/
theorem handleMapping_storing_branches_witness :
    (handleMapping envReady demoStoreWithPage "text" "https://e.x").calls =
      [.groq, .notionAppend "pg0" "text" "https://e.x"
        (processWithGroq envReady.groqResult "text").sectionTitle
        (processWithGroq envReady.groqResult "text").connections] ∧
    (handleMapping envReady demoStore "text" "https://e.x").calls =
      [.groq, .notionCreate
        (getSessionContext demoStore.sessions "a").sessionName "text"
        "https://e.x"
        (processWithGroq envReady.groqResult "text").sectionTitle] ∧
    Option.map Session.notionPageId
      ((handleMapping envReady demoStore "text"
        "https://e.x").store.sessions.find? (fun x => x.id == "a")) =
      some (some "pg1") :=
  ⟨(handleMapping_storing_branches envReady demoStoreWithPage "text"
      "https://e.x" "a" { token := "t", databaseId := "d" } rfl
      (by decide) rfl (by decide) rfl rfl).1 demoSessionWithPage "pg0" ""
      (by decide) rfl (by decide) rfl,
   (handleMapping_storing_branches envReady demoStore "text"
      "https://e.x" "a" { token := "t", databaseId := "d" } rfl
      (by decide) rfl (by decide) rfl rfl).2 demoSession "pg1"
      (by decide) rfl rfl |>.1,
   (handleMapping_storing_branches envReady demoStore "text"
      "https://e.x" "a" { token := "t", databaseId := "d" } rfl
      (by decide) rfl (by decide) rfl rfl).2 demoSession "pg1"
      (by decide) rfl rfl |>.2⟩

/-! ### Single-flight master-key creation
(`CryptoUtils.getOrCreateMasterKey` in `src/utils/crypto.js`)

The function guards concurrent invocations with the `_keyPromise`
field: the cache check, the promise check and the installation of a
new in-flight promise happen in one synchronous block (JavaScript's
run-to-completion semantics), while the async body yields at each
`await`.  We model this as a transition system: one atomic step per
synchronous segment, an interleaving scheduler over `n` concurrent
callers, keys as `Nat`, and a counter of fresh-key generations as a
ghost variable.  `nextFresh` makes distinct generations produce
distinct keys, so single-flight is not baked into the model. -/

/-- Program counter of the in-flight async body, between `await`
boundaries: about to read storage; resumed with the read result;
about to persist a freshly generated key. -/
inductive BPc
  | readStorage
  | afterRead (stored : Option Nat)
  | persist (k : Nat)
deriving DecidableEq

/-- Phase of one `getOrCreateMasterKey` caller: not yet run; the
installer awaiting the promise it created (it clears `_keyPromise`
when woken); a later caller that returned the existing promise;
finished with a key. -/
inductive CPhase
  | entry
  | waitMain
  | waitJoin
  | done (k : Nat)
deriving DecidableEq

/-- Global state: `_encryptionKey`, whether `_keyPromise` is set, the
promise's resolution value, the body's program counter,
`chrome.storage.local._masterKey`, the fresh-key source, the ghost
generation counter and each caller's phase. -/
structure KState where
  encKey : Option Nat
  keyPromise : Bool
  resolved : Option Nat
  body : Option BPc
  stored : Option Nat
  nextFresh : Nat
  genCount : Nat
  callers : List CPhase
deriving DecidableEq

/-- One atomic step of the event loop.  `cacheHit`/`join`/`install`
are the synchronous entry block of a caller; `bodyRead`/`bodyImport`/
`bodyGen`/`bodyPersist` are the async body's segments (importing a
stored key resolves the promise; generating one assigns the key, then
persists and resolves after further awaits); `wakeMain`/`wakeJoin`
resume callers awaiting the resolved promise. -/
inductive KStep : KState → KState → Prop
  | cacheHit (s : KState) (i k : Nat) :
      s.callers[i]? = some .entry → s.encKey = some k →
      KStep s { s with callers := s.callers.set i (.done k) }
  | join (s : KState) (i : Nat) :
      s.callers[i]? = some .entry → s.encKey = none →
      s.keyPromise = true →
      KStep s { s with callers := s.callers.set i .waitJoin }
  | install (s : KState) (i : Nat) :
      s.callers[i]? = some .entry → s.encKey = none →
      s.keyPromise = false →
      KStep s { s with
                keyPromise := true
                body := some .readStorage
                callers := s.callers.set i .waitMain }
  | bodyRead (s : KState) :
      s.body = some .readStorage →
      KStep s { s with body := some (.afterRead s.stored) }
  | bodyImport (s : KState) (k : Nat) :
      s.body = some (.afterRead (some k)) →
      KStep s { s with
                encKey := some k
                resolved := some k
                body := none }
  | bodyGen (s : KState) :
      s.body = some (.afterRead none) →
      KStep s { s with
                encKey := some s.nextFresh
                body := some (.persist s.nextFresh)
                nextFresh := s.nextFresh + 1
                genCount := s.genCount + 1 }
  | bodyPersist (s : KState) (k : Nat) :
      s.body = some (.persist k) →
      KStep s { s with
                stored := some k
                resolved := some k
                body := none }
  | wakeMain (s : KState) (i k : Nat) :
      s.callers[i]? = some .waitMain → s.resolved = some k →
      KStep s { s with
                keyPromise := false
                callers := s.callers.set i (.done k) }
  | wakeJoin (s : KState) (i k : Nat) :
      s.callers[i]? = some .waitJoin → s.resolved = some k →
      KStep s { s with callers := s.callers.set i (.done k) }

/-- Initial state: no cached key, no in-flight promise, `n` callers
about to run, arbitrary persisted key and fresh-key source. -/
def KInit (n : Nat) (stored0 : Option Nat) (fresh0 : Nat) : KState :=
  { encKey := none, keyPromise := false, resolved := none,
    body := none, stored := stored0, nextFresh := fresh0,
    genCount := 0, callers := List.replicate n .entry }

/-- States reachable by interleaving the callers from the initial
state. -/
inductive KReach (n : Nat) (stored0 : Option Nat) (fresh0 : Nat) :
    KState → Prop
  | init : KReach n stored0 fresh0 (KInit n stored0 fresh0)
  | step {s t : KState} : KReach n stored0 fresh0 s → KStep s t →
      KReach n stored0 fresh0 t

/-- Inductive invariant of `getOrCreateMasterKey`: the resolved value
and every finished caller's result agree with the cached key; an
active body implies the promise is set and pins the cache and
resolution state; a cleared promise means either the key already
exists or nothing has happened yet; at most one generation ever
happens. -/
def KInv (s : KState) : Prop :=
  (∀ k, s.resolved = some k → s.encKey = some k) ∧
  (∀ (i k : Nat), s.callers[i]? = some (CPhase.done k) →
    s.encKey = some k) ∧
  (s.body = some .readStorage →
    s.encKey = none ∧ s.resolved = none ∧ s.keyPromise = true) ∧
  (∀ o, s.body = some (.afterRead o) →
    s.encKey = none ∧ s.resolved = none ∧ s.keyPromise = true) ∧
  (∀ k, s.body = some (.persist k) →
    s.encKey = some k ∧ s.resolved = none ∧ s.keyPromise = true) ∧
  (s.keyPromise = false → s.encKey ≠ none ∨
    (s.body = none ∧ s.resolved = none ∧
      ∀ (i : Nat) (p : CPhase), s.callers[i]? = some p →
        p = CPhase.entry)) ∧
  (1 ≤ s.genCount → s.encKey ≠ none) ∧
  s.genCount ≤ 1

theorem getElem?_set_cases {α : Type} {l : List α} {i j : Nat}
    {v p : α} (h : (l.set i v)[j]? = some p) :
    (j = i ∧ p = v) ∨ (j ≠ i ∧ l[j]? = some p) := by
  rw [List.getElem?_set] at h
  by_cases hij : i = j
  · subst hij
    rw [if_pos rfl] at h
    by_cases hlen : i < l.length
    · rw [if_pos hlen] at h
      injection h with h
      exact Or.inl ⟨rfl, h.symm⟩
    · rw [if_neg hlen] at h
      exact absurd h (by simp)
  · rw [if_neg hij] at h
    exact Or.inr ⟨fun hji => hij hji.symm, h⟩

theorem KInv_init (n : Nat) (stored0 : Option Nat) (fresh0 : Nat) :
    KInv (KInit n stored0 fresh0) := by
  refine ⟨?_, ?_, ?_, ?_, ?_, ?_, ?_, ?_⟩
  · intro k h
    simp [KInit] at h
  · intro i k h
    simp only [KInit, List.getElem?_replicate] at h
    split at h
    · injection h with h
      exact absurd h (by simp)
    · exact absurd h (by simp)
  · intro h
    simp [KInit] at h
  · intro o h
    simp [KInit] at h
  · intro k h
    simp [KInit] at h
  · intro _
    refine Or.inr ⟨rfl, rfl, ?_⟩
    intro i p h
    simp only [KInit, List.getElem?_replicate] at h
    split at h
    · injection h with h
      exact h.symm
    · exact absurd h (by simp)
  · intro h
    simp [KInit] at h
  · exact Nat.zero_le 1

theorem KInv_step {s t : KState} (hs : KInv s) (h : KStep s t) :
    KInv t := by
  obtain ⟨h1, h2, h3, h4, h5, h6, h7, h8⟩ := hs
  cases h with
  | cacheHit i k hci hek =>
      refine ⟨h1, ?_, h3, h4, h5, ?_, h7, h8⟩
      · intro j k' hj
        have hj2 : (s.callers.set i (CPhase.done k))[j]? =
            some (CPhase.done k') := hj
        rcases getElem?_set_cases hj2 with ⟨_, hpv⟩ | ⟨_, hj3⟩
        · injection hpv with he
          show s.encKey = some k'
          rw [he]
          exact hek
        · exact h2 j k' hj3
      · intro _
        exact Or.inl (by rw [hek]; simp)
  | join i hci hek hkp =>
      refine ⟨h1, ?_, h3, h4, h5, ?_, h7, h8⟩
      · intro j k' hj
        have hj2 : (s.callers.set i CPhase.waitJoin)[j]? =
            some (CPhase.done k') := hj
        rcases getElem?_set_cases hj2 with ⟨_, hpv⟩ | ⟨_, hj3⟩
        · exact absurd hpv (by simp)
        · exact h2 j k' hj3
      · intro hkp'
        have hkp2 : s.keyPromise = false := hkp'
        rw [hkp] at hkp2
        exact absurd hkp2 (by simp)
  | install i hci hek hkp =>
      have hr : s.body = none ∧ s.resolved = none ∧
          ∀ (j : Nat) (p : CPhase), s.callers[j]? = some p →
            p = CPhase.entry := by
        rcases h6 hkp with hL | hR
        · exact absurd hek hL
        · exact hR
      obtain ⟨hbody, hres, hent⟩ := hr
      refine ⟨?_, ?_, ?_, ?_, ?_, ?_, ?_, h8⟩
      · intro k hk
        have hk2 : s.resolved = some k := hk
        rw [hres] at hk2
        exact absurd hk2 (by simp)
      · intro j k' hj
        have hj2 : (s.callers.set i CPhase.waitMain)[j]? =
            some (CPhase.done k') := hj
        rcases getElem?_set_cases hj2 with ⟨_, hpv⟩ | ⟨_, hj3⟩
        · exact absurd hpv (by simp)
        · exact absurd (hent j _ hj3) (by simp)
      · intro _
        exact ⟨hek, hres, rfl⟩
      · intro o ho
        exact absurd ho (by simp)
      · intro k hk
        exact absurd hk (by simp)
      · intro hkp'
        exact absurd hkp' (by simp)
      · intro hg
        exact absurd hek (h7 hg)
  | bodyRead hbd =>
      obtain ⟨hek, hres, hkp⟩ := h3 hbd
      refine ⟨?_, ?_, ?_, ?_, ?_, ?_, ?_, h8⟩
      · intro k hk
        have hk2 : s.resolved = some k := hk
        rw [hres] at hk2
        exact absurd hk2 (by simp)
      · intro j k' hj
        have := h2 j k' hj
        rw [hek] at this
        exact absurd this (by simp)
      · intro hb
        have hb2 : some (BPc.afterRead s.stored) =
            some BPc.readStorage := hb
        exact absurd hb2 (by simp)
      · intro o _
        exact ⟨hek, hres, hkp⟩
      · intro k hk
        have hk2 : some (BPc.afterRead s.stored) =
            some (BPc.persist k) := hk
        exact absurd hk2 (by simp)
      · intro hkp'
        have hkp2 : s.keyPromise = false := hkp'
        rw [hkp] at hkp2
        exact absurd hkp2 (by simp)
      · intro hg
        exact absurd hek (h7 hg)
  | bodyImport k hbd =>
      obtain ⟨hek, hres, hkp⟩ := h4 (some k) hbd
      refine ⟨?_, ?_, ?_, ?_, ?_, ?_, ?_, h8⟩
      · intro k' hk'
        exact hk'
      · intro j k' hj
        have := h2 j k' hj
        rw [hek] at this
        exact absurd this (by simp)
      · intro hb
        exact absurd hb (by simp)
      · intro o ho
        exact absurd ho (by simp)
      · intro k' hk'
        exact absurd hk' (by simp)
      · intro hkp'
        have hkp2 : s.keyPromise = false := hkp'
        rw [hkp] at hkp2
        exact absurd hkp2 (by simp)
      · intro _
        show some k ≠ none
        simp
  | bodyGen hbd =>
      obtain ⟨hek, hres, hkp⟩ := h4 none hbd
      have hg0 : s.genCount = 0 := by
        by_contra hne
        exact absurd hek (h7 (by omega))
      refine ⟨?_, ?_, ?_, ?_, ?_, ?_, ?_, ?_⟩
      · intro k hk
        have hk2 : s.resolved = some k := hk
        rw [hres] at hk2
        exact absurd hk2 (by simp)
      · intro j k' hj
        have := h2 j k' hj
        rw [hek] at this
        exact absurd this (by simp)
      · intro hb
        have hb2 : some (BPc.persist s.nextFresh) =
            some BPc.readStorage := hb
        exact absurd hb2 (by simp)
      · intro o ho
        have ho2 : some (BPc.persist s.nextFresh) =
            some (BPc.afterRead o) := ho
        exact absurd ho2 (by simp)
      · intro k hk
        have hk2 : some (BPc.persist s.nextFresh) =
            some (BPc.persist k) := hk
        injection hk2 with he
        injection he with he2
        exact ⟨by rw [← he2], hres, hkp⟩
      · intro hkp'
        have hkp2 : s.keyPromise = false := hkp'
        rw [hkp] at hkp2
        exact absurd hkp2 (by simp)
      · intro _
        show some s.nextFresh ≠ none
        simp
      · show s.genCount + 1 ≤ 1
        omega
  | bodyPersist k hbd =>
      obtain ⟨hek, hres, hkp⟩ := h5 k hbd
      refine ⟨?_, ?_, ?_, ?_, ?_, ?_, ?_, h8⟩
      · intro k' hk'
        have hk2 : some k = some k' := hk'
        injection hk2 with he
        show s.encKey = some k'
        rw [← he]
        exact hek
      · intro j k' hj
        exact h2 j k' hj
      · intro hb
        exact absurd hb (by simp)
      · intro o ho
        exact absurd ho (by simp)
      · intro k' hk'
        exact absurd hk' (by simp)
      · intro hkp'
        have hkp2 : s.keyPromise = false := hkp'
        rw [hkp] at hkp2
        exact absurd hkp2 (by simp)
      · intro hg
        exact h7 hg
  | wakeMain i k hci hres =>
      have hek := h1 k hres
      refine ⟨?_, ?_, ?_, ?_, ?_, ?_, ?_, h8⟩
      · intro k' hk'
        exact h1 k' hk'
      · intro j k' hj
        have hj2 : (s.callers.set i (CPhase.done k))[j]? =
            some (CPhase.done k') := hj
        rcases getElem?_set_cases hj2 with ⟨_, hpv⟩ | ⟨_, hj3⟩
        · injection hpv with he
          show s.encKey = some k'
          rw [he]
          exact hek
        · exact h2 j k' hj3
      · intro hb
        obtain ⟨_, hr, _⟩ := h3 hb
        rw [hres] at hr
        exact absurd hr (by simp)
      · intro o ho
        obtain ⟨_, hr, _⟩ := h4 o ho
        rw [hres] at hr
        exact absurd hr (by simp)
      · intro k' hk'
        obtain ⟨_, hr, _⟩ := h5 k' hk'
        rw [hres] at hr
        exact absurd hr (by simp)
      · intro _
        exact Or.inl (by rw [hek]; simp)
      · intro hg
        exact h7 hg
  | wakeJoin i k hci hres =>
      have hek := h1 k hres
      refine ⟨h1, ?_, h3, h4, h5, ?_, h7, h8⟩
      · intro j k' hj
        have hj2 : (s.callers.set i (CPhase.done k))[j]? =
            some (CPhase.done k') := hj
        rcases getElem?_set_cases hj2 with ⟨_, hpv⟩ | ⟨_, hj3⟩
        · injection hpv with he
          show s.encKey = some k'
          rw [he]
          exact hek
        · exact h2 j k' hj3
      · intro _
        exact Or.inl (by rw [hek]; simp)

/-- Every reachable state satisfies the invariant. -/
theorem KInv_reach {n : Nat} {stored0 : Option Nat} {fresh0 : Nat}
    {s : KState} (h : KReach n stored0 fresh0 s) : KInv s := by
  induction h with
  | init => exact KInv_init n stored0 fresh0
  | step _ hstep ih => exact KInv_step ih hstep

/-- C9: under any interleaving of `n` concurrent
`getOrCreateMasterKey` calls started before the key exists, all
finished callers hold the same key bytes, and at most one fresh key
is ever generated (hence persisted) — the `_keyPromise` guard
collapses the overlapping calls into a single creation path. -/
theorem getOrCreateMasterKey_single_flight (n : Nat)
    (stored0 : Option Nat) (fresh0 : Nat) (s : KState)
    (h : KReach n stored0 fresh0 s) :
    (∀ (i j ki kj : Nat), s.callers[i]? = some (CPhase.done ki) →
      s.callers[j]? = some (CPhase.done kj) → ki = kj) ∧
    s.genCount ≤ 1 := by
  obtain ⟨_, h2, _, _, _, _, _, h8⟩ := KInv_reach h
  refine ⟨?_, h8⟩
  intro i j ki kj hi hj
  have hki := h2 i ki hi
  have hkj := h2 j kj hj
  rw [hki] at hkj
  injection hkj

/-- The state reached by the interleaving: caller 0 installs the
promise and runs the body (no stored key, so one generation with
fresh key 7, persisted and resolved), is woken and clears the
promise; caller 1 then hits the cache. -/
def traceFinal : KState :=
  { encKey := some 7, keyPromise := false, resolved := some 7,
    body := none, stored := some 7, nextFresh := 8, genCount := 1,
    callers := [CPhase.done 7, CPhase.done 7] }

/-- A concrete six-step interleaving of two callers reaching
`traceFinal` from the empty initial state. -/
theorem traceFinal_reach : KReach 2 none 7 traceFinal := by
  have t0 : KReach 2 none 7 (KInit 2 none 7) := KReach.init
  have t1 := KReach.step t0 (KStep.install (KInit 2 none 7) 0 rfl rfl
    rfl)
  have t2 := KReach.step t1 (KStep.bodyRead _ rfl)
  have t3 := KReach.step t2 (KStep.bodyGen _ rfl)
  have t4 := KReach.step t3 (KStep.bodyPersist _ 7 rfl)
  have t5 := KReach.step t4 (KStep.wakeMain _ 0 7 rfl rfl)
  have t6 := KReach.step t5 (KStep.cacheHit _ 1 7 rfl rfl)
  exact t6

/-- Witness: the single-flight theorem applied to the concrete
two-caller trace — both finished callers hold key 7 and exactly one
generation happened. -/
theorem getOrCreateMasterKey_single_flight_witness :
    traceFinal.genCount ≤ 1 ∧ 7 = 7 :=
  ⟨(getOrCreateMasterKey_single_flight 2 none 7 traceFinal
      traceFinal_reach).2,
   (getOrCreateMasterKey_single_flight 2 none 7 traceFinal
      traceFinal_reach).1 0 1 7 7 rfl rfl⟩

end Mapping
